import Mathlib

/-!
Verification development for the `one-var` declaration-grouping rule
(`src/eslint/lib/rules/no-undefined.js`, second document in the file).

The JavaScript rule is shallowly embedded: every definition below mirrors a
function or data shape of the source.  Stacks are Lean lists whose head is the
stack top (JS `push`/`pop`/`at(-1)` become `cons`/`tail`/`head?`); source text
is a list of characters indexed by the same 0-based ranges the tokens carry.
-/

namespace OneVar

/-- The three policy modes: `MODE_ALWAYS`, `MODE_NEVER`, `MODE_CONSECUTIVE`. -/
inductive Mode where
  | always
  | never
  | consecutive
deriving DecidableEq

/-- `node.kind` of a variable declaration: `"var"`, `"let"` or `"const"`. -/
inductive Kind where
  | varKind
  | letKind
  | constKind
deriving DecidableEq

/-- The string value of `node.kind`, used by the fixers (`declaration.kind`,
`previousNode.kind === sourceCode.getText(type)`). -/
def kindString : Kind → String
  | .varKind => "var"
  | .letKind => "let"
  | .constKind => "const"

/-- An initializer expression; the rule only inspects whether it is a
`CallExpression` and, if so, the callee's name (`isRequire`). -/
inductive InitExpr where
  | callExpr (calleeName : String)
  | otherExpr
deriving DecidableEq

/-- One `VariableDeclarator` node: an optional initializer and the node's
source range (used by the fixers' token lookups). -/
structure DeclaratorNode where
  init : Option InitExpr
  range : Nat × Nat
deriving DecidableEq

/-- `isRequire(decl)`: `decl.init && decl.init.type === "CallExpression" &&
decl.init.callee.name === "require"`. -/
def isRequire (decl : DeclaratorNode) : Bool :=
  match decl.init with
  | some (.callExpr calleeName) => calleeName = "require"
  | _ => false

/-- Result of `countDeclarations`. -/
structure Counts where
  uninitialized : Nat
  initialized : Nat
deriving DecidableEq

/-- `countDeclarations(declarations)`: counts declarators with `init === null`
as uninitialized, the rest as initialized. -/
def countDeclarations (declarations : List DeclaratorNode) : Counts :=
  declarations.foldl
    (fun counts d =>
      match d.init with
      | none => { counts with uninitialized := counts.uninitialized + 1 }
      | some _ => { counts with initialized := counts.initialized + 1 })
    { uninitialized := 0, initialized := 0 }

/-- A scope record as pushed by `startFunction`/`startBlock`:
`{ initialized: false, uninitialized: false }`.  The JS objects acquire a
`required` property dynamically in `recordTypes`; a missing property reads as
falsy, so it is modelled as a `Bool` field that starts out `false`. -/
structure ScopeRec where
  initialized : Bool
  uninitialized : Bool
  required : Bool
deriving DecidableEq

/-- A freshly pushed scope record. -/
def freshScope : ScopeRec :=
  { initialized := false, uninitialized := false, required := false }

/-- The per-kind option pair `options[type]`; each field is `undefined`
(`none`) when the configuration did not set a mode for it. -/
structure KindOptions where
  initialized : Option Mode
  uninitialized : Option Mode
deriving DecidableEq

/-- The derived `options` object.  Both branches of the option-normalisation
code assign an object to each of `options.var/let/const`, so the per-kind
entries always exist (the `if (!options[type]) return;` guard in
`checkVariableDeclaration` can never fire); `options.separateRequires` is left
unset (falsy) by the string branch and set to `!!mode.separateRequires` by the
object branch. -/
structure Options where
  separateRequires : Bool
  varOpts : KindOptions
  letOpts : KindOptions
  constOpts : KindOptions
deriving DecidableEq

/-- `options[type]`. -/
def optionsFor (opts : Options) : Kind → KindOptions
  | .varKind => opts.varOpts
  | .letKind => opts.letOpts
  | .constKind => opts.constOpts

/-- An object-shaped rule configuration (`context.options[0]` when it is an
object).  A field holds `none` when the property is absent; the schema's enums
rule out present-but-`undefined` properties, so `Object.hasOwn` agrees with
`isSome` here. -/
structure ObjMode where
  separateRequires : Option Bool
  varMode : Option Mode
  letMode : Option Mode
  constMode : Option Mode
  initialized : Option Mode
  uninitialized : Option Mode

/-- `context.options[0]`: a bare mode string or an options object. -/
inductive ConfigMode where
  | str (m : Mode)
  | obj (o : ObjMode)

/-- The option-normalisation code at the top of `create`:
`mode = context.options[0] || MODE_ALWAYS`, then the string / object
branches building `options`. -/
def computeOptions (configured : Option ConfigMode) : Options :=
  match configured.getD (.str .always) with
  | .str m =>
      { separateRequires := false
        varOpts := { initialized := some m, uninitialized := some m }
        letOpts := { initialized := some m, uninitialized := some m }
        constOpts := { initialized := some m, uninitialized := some m } }
  | .obj o =>
      let base (k : Option Mode) : KindOptions :=
        { initialized := o.initialized.orElse fun _ => k
          uninitialized := o.uninitialized.orElse fun _ => k }
      { separateRequires := (o.separateRequires.getD false)
        varOpts := base o.varMode
        letOpts := base o.letMode
        constOpts := base o.constMode }

/-- The loop body of `recordTypes` for one declarator. -/
def recordOne (opts : Options) (statementType : Kind) (scope : ScopeRec)
    (d : DeclaratorNode) : ScopeRec :=
  match d.init with
  | none =>
      if (optionsFor opts statementType).uninitialized = some .always then
        { scope with uninitialized := true }
      else scope
  | some _ =>
      if (optionsFor opts statementType).initialized = some .always then
        if opts.separateRequires ∧ isRequire d then
          { scope with required := true }
        else
          { scope with initialized := true }
      else scope

/-- `recordTypes(statementType, declarations, currentScope)`: records which
initialized/uninitialized/required buckets this statement claims in the
current scope, only under the corresponding `ALWAYS` mode. -/
def recordTypes (opts : Options) (statementType : Kind)
    (declarations : List DeclaratorNode) (currentScope : ScopeRec) : ScopeRec :=
  declarations.foldl (recordOne opts statementType) currentScope

/-- `hasOnlyOneStatement(statementType, declarations)`.  The JS function reads
and mutates the current scope record through the stacks; here the record is an
explicit argument and the (possibly updated) record is returned alongside the
boolean: `(true, recordTypes …)` on the no-violation path, `(false, scope)`
unchanged on every early-`return false` path. -/
def hasOnlyOneStatement (opts : Options) (statementType : Kind)
    (declarations : List DeclaratorNode) (currentScope : ScopeRec) :
    Bool × ScopeRec :=
  let declarationCounts := countDeclarations declarations
  let currentOptions := optionsFor opts statementType
  let hasRequires := declarations.any isRequire
  if currentOptions.uninitialized = some .always ∧
      currentOptions.initialized = some .always ∧
      (currentScope.uninitialized ∨ currentScope.initialized) ∧
      ¬ hasRequires then
    (false, currentScope)
  else if declarationCounts.uninitialized > 0 ∧
      currentOptions.uninitialized = some .always ∧
      currentScope.uninitialized then
    (false, currentScope)
  else if declarationCounts.initialized > 0 ∧
      currentOptions.initialized = some .always ∧
      currentScope.initialized ∧ ¬ hasRequires then
    (false, currentScope)
  else if currentScope.required ∧ hasRequires then
    (false, currentScope)
  else
    (true, recordTypes opts statementType declarations currentScope)

/-- The AST node types the rule distinguishes (parent / grandparent of a
declaration, the statement-list parents, the loop headers). -/
inductive NodeType where
  | program
  | blockStatement
  | staticBlock
  | switchCase
  | forStatement
  | forInStatement
  | forOfStatement
  | ifStatement
  | exportNamedDeclaration
  | otherType
deriving DecidableEq

/-- The previous sibling statement `parent.body[nodeIndex - 1]`, as far as the
rule inspects it: either a `VariableDeclaration` (with its `kind` and
`declarations`) or some other statement. -/
inductive PrevStmt where
  | varDecl (kind : Kind) (declarations : List DeclaratorNode)
  | otherStmt
deriving DecidableEq

/-- A `VariableDeclaration` node together with the pieces of its context the
rule reads: `parent.type`, `parent.parent.type` (consulted for re-exported
declarations), whether `parent.init === node` / `parent.left === node`, and
the previous sibling when the node sits at `nodeIndex > 0` of `parent.body`
(`prevSibling = none` models `nodeIndex <= 0`, i.e. the parent has no body
array, the node is not in it, or it is first; `joinDeclarations`' range-based
`findIndex` in the parent body locates the same sibling). -/
structure VarDeclNode where
  kind : Kind
  declarations : List DeclaratorNode
  range : Nat × Nat
  parentType : NodeType
  grandParentType : NodeType
  parentInit : Bool
  parentLeft : Bool
  prevSibling : Option PrevStmt
deriving DecidableEq

/-- Modelled from the spec: the syntactic statement-list contexts
(`astUtils.STATEMENT_LIST_PARENTS`; `utils/ast-utils.js` is required by the
rule but not part of this repository's sources).  Per the spec, a declaration
that is the sole body of an unbraced `if`/`for` is *not* in a statement list,
while top-level and braced-block statements are; switch cases and class static
blocks also hold statement lists. -/
def STATEMENT_LIST_PARENTS : List NodeType :=
  [.program, .blockStatement, .staticBlock, .switchCase]

/-- `isInStatementList(node)`: whether `node.parent.type` is a
statement-list context. -/
def isInStatementList (parentType : NodeType) : Bool :=
  STATEMENT_LIST_PARENTS.contains parentType

/-- The diagnostic `messageId`s of the rule. -/
inductive MessageId where
  | combineUninitialized
  | combineInitialized
  | splitUninitialized
  | splitInitialized
  | splitRequires
  | combine
  | split
deriving DecidableEq

/-- A deferred fix closure, carrying the AST data captured eagerly at
`context.report` time: `joinDeclarations` captures the declarator list and the
previous sibling it looked up; `splitDeclarations` (past its statement-list
veto) captures the declaration node. -/
inductive FixClosure where
  | join (declarations : List DeclaratorNode) (previousNode : Option PrevStmt)
  | split (node : VarDeclNode)
deriving DecidableEq

/-- One `context.report` call: the `messageId` and the attached fix
(`none` when no fix is offered, as for `splitRequires`, or when
`splitDeclarations` returned `null`). -/
structure Report where
  messageId : MessageId
  fix : Option FixClosure
deriving DecidableEq

/-- `joinDeclarations(declarations)` up to returning the closure: the eager
part resolves the previous sibling (here supplied by the node context, see
`VarDeclNode.prevSibling`). -/
def joinDeclarationsFix (node : VarDeclNode) : Option FixClosure :=
  some (.join node.declarations node.prevSibling)

/-- `splitDeclarations(declaration)` up to returning the closure: it returns
`null` (no fix) when the declaration — or, for `export` declarations, the
export statement — is not in a statement list. -/
def splitDeclarationsFix (node : VarDeclNode) : Option FixClosure :=
  if isInStatementList
      (if node.parentType = .exportNamedDeclaration then node.grandParentType
       else node.parentType) then
    some (.split node)
  else
    none

/-- The `mixedRequires` computation of `checkVariableDeclaration`:
`declarations.some(isRequire) && !declarations.every(isRequire)`. -/
def mixedRequires (declarations : List DeclaratorNode) : Bool :=
  declarations.any isRequire ∧ ¬ declarations.all isRequire

/-- The leading `splitRequires` check of `checkVariableDeclaration`: under
`initialized === MODE_ALWAYS`, `separateRequires` and a mixed
require/non-require declarator list, report `splitRequires` (no fix). -/
def checkRequiresPhase (opts : Options) (node : VarDeclNode) : List Report :=
  if (optionsFor opts node.kind).initialized = some .always ∧
      opts.separateRequires ∧ mixedRequires node.declarations then
    [{ messageId := .splitRequires, fix := none }]
  else []

/-- The `// consecutive` block of `checkVariableDeclaration`: when the
previous sibling is a declaration of the same kind and the union of both
declarator lists does not mix requires with non-requires, report at most one
of `combine` / `combineInitialized` / `combineUninitialized` under the
`CONSECUTIVE` modes, in that priority order. -/
def checkConsecutivePhase (opts : Options) (node : VarDeclNode) : List Report :=
  match node.prevSibling with
  | none => []
  | some .otherStmt => []
  | some (.varDecl prevKind prevDeclarations) =>
      let declarationsWithPrevious := node.declarations ++ prevDeclarations
      if prevKind = node.kind ∧
          ¬ (declarationsWithPrevious.any isRequire ∧
             ¬ declarationsWithPrevious.all isRequire) then
        let cur := optionsFor opts node.kind
        let declarationCounts := countDeclarations node.declarations
        let previousDeclCounts := countDeclarations prevDeclarations
        if cur.initialized = some .consecutive ∧
            cur.uninitialized = some .consecutive then
          [{ messageId := .combine, fix := joinDeclarationsFix node }]
        else if cur.initialized = some .consecutive ∧
            declarationCounts.initialized > 0 ∧
            previousDeclCounts.initialized > 0 then
          [{ messageId := .combineInitialized, fix := joinDeclarationsFix node }]
        else if cur.uninitialized = some .consecutive ∧
            declarationCounts.uninitialized > 0 ∧
            previousDeclCounts.uninitialized > 0 then
          [{ messageId := .combineUninitialized, fix := joinDeclarationsFix node }]
        else []
      else []

/-- The `// always` block of `checkVariableDeclaration`.  Returns the reports,
the (possibly updated) scope record from `hasOnlyOneStatement`, and whether
the block hit the `for-in`/`for-of` early `return` (which aborts the whole
check, skipping the `// never` block). -/
def checkAlwaysPhase (opts : Options) (node : VarDeclNode)
    (currentScope : ScopeRec) : List Report × ScopeRec × Bool :=
  let res := hasOnlyOneStatement opts node.kind node.declarations currentScope
  if res.fst then ([], res.snd, false)
  else
    let cur := optionsFor opts node.kind
    let declarationCounts := countDeclarations node.declarations
    if cur.initialized = some .always ∧ cur.uninitialized = some .always then
      ([{ messageId := .combine, fix := joinDeclarationsFix node }],
       res.snd, false)
    else
      let initReports : List Report :=
        if cur.initialized = some .always ∧ declarationCounts.initialized > 0 then
          [{ messageId := .combineInitialized, fix := joinDeclarationsFix node }]
        else []
      if cur.uninitialized = some .always ∧
          declarationCounts.uninitialized > 0 then
        if node.parentLeft ∧
            (node.parentType = .forInStatement ∨
             node.parentType = .forOfStatement) then
          (initReports, res.snd, true)
        else
          (initReports ++
             [{ messageId := .combineUninitialized,
                fix := joinDeclarationsFix node }],
           res.snd, false)
      else (initReports, res.snd, false)

/-- The `// never` block of `checkVariableDeclaration`: skipped for the init
clause of a `for (...)` header; otherwise, on a statement with more than one
declarator, report at most one of `split` / `splitInitialized` /
`splitUninitialized` under the `NEVER` modes, in that priority order. -/
def checkNeverPhase (opts : Options) (node : VarDeclNode) : List Report :=
  if node.parentType ≠ .forStatement ∨ ¬ node.parentInit then
    let declarationCounts := countDeclarations node.declarations
    let totalDeclarations :=
      declarationCounts.uninitialized + declarationCounts.initialized
    if totalDeclarations > 1 then
      let cur := optionsFor opts node.kind
      if cur.initialized = some .never ∧ cur.uninitialized = some .never then
        [{ messageId := .split, fix := splitDeclarationsFix node }]
      else if cur.initialized = some .never ∧
          (countDeclarations node.declarations).initialized > 0 then
        [{ messageId := .splitInitialized, fix := splitDeclarationsFix node }]
      else if cur.uninitialized = some .never ∧
          (countDeclarations node.declarations).uninitialized > 0 then
        [{ messageId := .splitUninitialized, fix := splitDeclarationsFix node }]
      else []
    else []
  else []

/-- `checkVariableDeclaration(node)`, with the current scope record made
explicit: the four blocks run in source order, the `// never` block is
reached only when the `// always` block did not early-`return`, and the scope
record updated by `hasOnlyOneStatement` is returned. -/
def checkVariableDeclaration (opts : Options) (node : VarDeclNode)
    (currentScope : ScopeRec) : List Report × ScopeRec :=
  let requiresReports := checkRequiresPhase opts node
  let consecutiveReports := checkConsecutivePhase opts node
  let alwaysRes := checkAlwaysPhase opts node currentScope
  if alwaysRes.snd.snd then
    (requiresReports ++ consecutiveReports ++ alwaysRes.fst, alwaysRes.snd.fst)
  else
    (requiresReports ++ consecutiveReports ++ alwaysRes.fst ++
       checkNeverPhase opts node,
     alwaysRes.snd.fst)

/-- A token (or comment) of the tokenised source: its text, 0-based character
range, start/end lines, and whether it is a `Line`/`Block` comment (the only
`token.type` values the rule tests for). -/
structure Token where
  value : String
  range : Nat × Nat
  startLine : Nat
  endLine : Nat
  isComment : Bool
deriving DecidableEq

/-- The read-only `sourceCode` collaborator: the raw text (as characters,
indexed by the token ranges) and the token stream, sorted by range and
including comments. -/
structure SourceCode where
  text : List Char
  tokens : List Token
deriving DecidableEq

/-- `sourceCode.getTokenAfter` at a source position: the first token starting
at or after `pos`, skipping comments unless `includeComments`. -/
def getTokenAfterPos (sc : SourceCode) (pos : Nat) (includeComments : Bool) :
    Option Token :=
  sc.tokens.find? fun t =>
    decide (pos ≤ t.range.fst) && (includeComments || ! t.isComment)

/-- `sourceCode.getTokenBefore` at a source position: the last token ending at
or before `pos`, skipping comments. -/
def getTokenBeforePos (sc : SourceCode) (pos : Nat) : Option Token :=
  (sc.tokens.filter fun t => decide (t.range.snd ≤ pos) && ! t.isComment).getLast?

/-- `sourceCode.text.slice(a, b)`. -/
def sliceText (text : List Char) (a b : Nat) : List Char :=
  (text.drop a).take (b - a)

/-- `sourceCode.getText(token)`. -/
def getText (sc : SourceCode) (t : Token) : List Char :=
  sliceText sc.text t.range.fst t.range.snd

/-- A text edit produced by a fixer: replace the character range with the
replacement (`fixer.replaceText`, `fixer.replaceTextRange`;
`fixer.insertTextAfter tok` is a replacement of the empty range at the
token's end). -/
inductive Edit where
  | replaceRange (range : Nat × Nat) (replacement : List Char)
deriving DecidableEq

/-- Apply one edit to the text. -/
def applyEdit (text : List Char) : Edit → List Char
  | .replaceRange r replacement =>
      text.take r.fst ++ replacement ++ text.drop r.snd

/-- Apply a list of edits, rightmost first (edits produced by the fixers are
non-overlapping and listed left to right). -/
def applyEdits (text : List Char) (edits : List Edit) : List Char :=
  edits.foldr (fun e acc => applyEdit acc e) text

/-- The `while (lastComment.type === "Line" || lastComment.type === "Block")`
walk of the split fixer: advance past contiguous comments.  Structural
recursion on a fuel bound (the token count suffices; the walk visits each
token at most once). -/
def skipComments (sc : SourceCode) (t : Token) : Nat → Option Token
  | 0 => none
  | fuel + 1 =>
      if t.isComment then
        match getTokenAfterPos sc t.range.snd true with
        | none => none
        | some next => skipComments sc next fuel
      else some t

/-- The body of the closure returned by `joinDeclarations`: find the `var`/
`let`/`const` keyword token before the first declarator and the token before
it; if the previous sibling is a declaration of the same kind, turn that
token into (or follow it with) a comma and erase the keyword.  Lookups that
would be `null` in JS yield no edits (the guard makes them unreachable on the
inputs the rule reports). -/
def evalJoinFix (sc : SourceCode) (declarations : List DeclaratorNode)
    (previousNode : Option PrevStmt) : List Edit :=
  match declarations.head? with
  | none => []
  | some declaration =>
      match getTokenBeforePos sc declaration.range.fst with
      | none => []
      | some ty =>
          match getTokenBeforePos sc ty.range.fst with
          | none => []
          | some prevSemi =>
              let sameKind :=
                match previousNode with
                | some (.varDecl k _) => decide ((kindString k).data = getText sc ty)
                | _ => false
              if sameKind then
                (if prevSemi.value = ";" then
                   [Edit.replaceRange prevSemi.range ",".data]
                 else
                   [Edit.replaceRange (prevSemi.range.snd, prevSemi.range.snd)
                      ",".data]) ++
                [Edit.replaceRange ty.range []]
              else []

/-- The per-declarator body of the closure returned by `splitDeclarations`:
when the token after the declarator is a comma, replace it (or the span up to
the token after any comments) with a terminator plus the repeated keyword,
preserving intervening text verbatim; otherwise contribute nothing. -/
def splitOneDeclarator (sc : SourceCode) (node : VarDeclNode)
    (declarator : DeclaratorNode) : Option Edit :=
  match getTokenAfterPos sc declarator.range.snd false with
  | none => none
  | some tokenAfterDeclarator =>
      if tokenAfterDeclarator.value ≠ "," then none
      else
        match getTokenAfterPos sc tokenAfterDeclarator.range.snd true with
        | none => none
        | some afterComma =>
            let exportPlacement :=
              if node.parentType = .exportNamedDeclaration then "export " else ""
            if afterComma.range.fst = tokenAfterDeclarator.range.snd then
              some (.replaceRange tokenAfterDeclarator.range
                ("; " ++ exportPlacement ++ kindString node.kind ++ " ").data)
            else if afterComma.startLine > tokenAfterDeclarator.endLine ∨
                afterComma.isComment then
              match skipComments sc afterComma (sc.tokens.length + 1) with
              | none => none
              | some lastComment =>
                  some (.replaceRange
                    (tokenAfterDeclarator.range.fst, lastComment.range.fst)
                    (";".data ++
                     sliceText sc.text tokenAfterDeclarator.range.snd
                       lastComment.range.fst ++
                     (exportPlacement ++ kindString node.kind ++ " ").data))
            else
              some (.replaceRange tokenAfterDeclarator.range
                ("; " ++ exportPlacement ++ kindString node.kind).data)

/-- The body of the closure returned by `splitDeclarations`: map over the
declarators and keep the non-null edits. -/
def evalSplitFix (sc : SourceCode) (node : VarDeclNode) : List Edit :=
  node.declarations.filterMap (splitOneDeclarator sc node)

/-- A block-stack entry: `{ let: {…}, const: {…} }`. -/
structure BlockRec where
  letRec : ScopeRec
  constRec : ScopeRec
deriving DecidableEq

/-- A fresh block-stack entry. -/
def freshBlock : BlockRec :=
  { letRec := freshScope, constRec := freshScope }

/-- The two parallel scope stacks (`functionStack`, `blockStack`); the list
head is the stack top. -/
structure AnalyzerState where
  functionStack : List ScopeRec
  blockStack : List BlockRec
deriving DecidableEq

/-- `startBlock()`: push a fresh block record. -/
def startBlock (s : AnalyzerState) : AnalyzerState :=
  { s with blockStack := freshBlock :: s.blockStack }

/-- `startFunction()`: push a fresh function record, then `startBlock()`. -/
def startFunction (s : AnalyzerState) : AnalyzerState :=
  startBlock { s with functionStack := freshScope :: s.functionStack }

/-- `endBlock()`: pop the block stack. -/
def endBlock (s : AnalyzerState) : AnalyzerState :=
  { s with blockStack := s.blockStack.tail }

/-- `endFunction()`: pop the function stack, then `endBlock()`. -/
def endFunction (s : AnalyzerState) : AnalyzerState :=
  endBlock { s with functionStack := s.functionStack.tail }

/-- `getCurrentScope(statementType)`: `var` consults the function stack's top,
`let`/`const` the corresponding field of the block stack's top
(`none` models the out-of-scope-record crash that the visitor's
`Program → startFunction` registration makes unreachable). -/
def getCurrentScope (s : AnalyzerState) : Kind → Option ScopeRec
  | .varKind => s.functionStack.head?
  | .letKind => s.blockStack.head?.map BlockRec.letRec
  | .constKind => s.blockStack.head?.map BlockRec.constRec

/-- The scope open/close events the visitor registration drives:
`Program`/function nodes fire `startFunction`/`endFunction`, block-like nodes
fire `startBlock`/`endBlock`. -/
inductive TraversalEvent where
  | enterFunction
  | enterBlock
  | exitFunction
  | exitBlock
deriving DecidableEq

/-- One visitor event applied to the stacks. -/
def stepEvent (s : AnalyzerState) : TraversalEvent → AnalyzerState
  | .enterFunction => startFunction s
  | .enterBlock => startBlock s
  | .exitFunction => endFunction s
  | .exitBlock => endBlock s

/-- A sequence of visitor events applied in order. -/
def runEvents (s : AnalyzerState) (evs : List TraversalEvent) : AnalyzerState :=
  evs.foldl stepEvent s

/-- Balanced enter/exit sequences: matching `exit*` calls pair with their
`enter*` in LIFO order (the host visitor's pre-order/post-order discipline). -/
inductive Balanced : List TraversalEvent → Prop
  | nil : Balanced []
  | app {xs ys : List TraversalEvent} :
      Balanced xs → Balanced ys → Balanced (xs ++ ys)
  | fn {xs : List TraversalEvent} :
      Balanced xs →
      Balanced ([TraversalEvent.enterFunction] ++ xs ++ [TraversalEvent.exitFunction])
  | blk {xs : List TraversalEvent} :
      Balanced xs →
      Balanced ([TraversalEvent.enterBlock] ++ xs ++ [TraversalEvent.exitBlock])

/-- The environment a fix closure runs in: the captured `sourceCode` and the
rule's mutable stacks, both in scope where the closures are created inside
`create`. -/
structure ClosureEnv where
  sourceCode : SourceCode
  state : AnalyzerState
deriving DecidableEq

/-- Evaluating a fix closure in its environment.  The closure bodies
(`joinDeclarations`' and `splitDeclarations`' returned functions) reference
only `sourceCode` and the captured AST nodes and contain no assignment to
`functionStack`/`blockStack`, so the state component passes through
unchanged. -/
def evalFixClosure (env : ClosureEnv) : FixClosure → List Edit × AnalyzerState
  | .join declarations previousNode =>
      (evalJoinFix env.sourceCode declarations previousNode, env.state)
  | .split node => (evalSplitFix env.sourceCode node, env.state)

/-! ### Analysis helpers over the emitted reports -/

/-- How many reports in a list carry the given `messageId`. -/
def countMessage (reports : List Report) (m : MessageId) : Nat :=
  (reports.filter fun r => decide (r.messageId = m)).length

/-- Whether a `messageId` is one of the three NEVER-split diagnostics. -/
def isNeverSplitMsg : MessageId → Bool
  | .split => true
  | .splitInitialized => true
  | .splitUninitialized => true
  | _ => false

/-! ### Concrete inputs used by the counterexamples and witnesses -/

/-- `separateRequires: true` with uniform per-kind mode `"never"`. -/
def c1opts : Options :=
  computeOptions (some (.obj
    { separateRequires := some true
      varMode := some .never
      letMode := some .never
      constMode := some .never
      initialized := none
      uninitialized := none }))

/-- `var a = require("x"), b = 1;` at top level. -/
def c1node : VarDeclNode :=
  { kind := .varKind
    declarations :=
      [ { init := some (.callExpr "require"), range := (8, 22) }
      , { init := some .otherExpr, range := (24, 29) } ]
    range := (0, 30)
    parentType := .program
    grandParentType := .otherType
    parentInit := false
    parentLeft := false
    prevSibling := none }

/-- `separateRequires: true` with `initialized: "always"` for `var`. -/
def c1wOpts : Options :=
  computeOptions (some (.obj
    { separateRequires := some true
      varMode := some .always
      letMode := none
      constMode := none
      initialized := none
      uninitialized := none }))

/-- Mixed-mode policy `var: { initialized: always, uninitialized: never }`. -/
def c2opts : Options :=
  { separateRequires := false
    varOpts := { initialized := some .always, uninitialized := some .never }
    letOpts := { initialized := none, uninitialized := none }
    constOpts := { initialized := none, uninitialized := none } }

/-- `var a = 1, b;` at top level. -/
def c2node : VarDeclNode :=
  { kind := .varKind
    declarations :=
      [ { init := some .otherExpr, range := (4, 9) }
      , { init := none, range := (11, 12) } ]
    range := (0, 13)
    parentType := .program
    grandParentType := .otherType
    parentInit := false
    parentLeft := false
    prevSibling := none }

/-- A scope record whose `initialized` bucket is already claimed. -/
def c2scope : ScopeRec :=
  { initialized := true, uninitialized := false, required := false }

/-- Uniform singleton mode `"never"` (used to witness the amended C2). -/
def c2wOpts : Options := computeOptions (some (.str .never))

/-- Both modes `ALWAYS` for `var`, `separateRequires` off. -/
def c3opts : Options :=
  { separateRequires := false
    varOpts := { initialized := some .always, uninitialized := some .always }
    letOpts := { initialized := none, uninitialized := none }
    constOpts := { initialized := none, uninitialized := none } }

/-- `a = require("x"), b = 1`: a mixed special-call declarator list. -/
def c3decls : List DeclaratorNode :=
  [ { init := some (.callExpr "require"), range := (8, 22) }
  , { init := some .otherExpr, range := (24, 29) } ]

/-- A scope record whose `initialized` bucket is already claimed. -/
def c3scope : ScopeRec :=
  { initialized := true, uninitialized := false, required := false }

/-- `a = 1, b = 2`: plain initialized declarators, no special calls. -/
def c3wDecls : List DeclaratorNode :=
  [ { init := some .otherExpr, range := (4, 9) }
  , { init := some .otherExpr, range := (11, 16) } ]

/-- The tokenisation of the source text `var a, b;`. -/
def c4sc : SourceCode :=
  { text := "var a, b;".data
    tokens :=
      [ { value := "var", range := (0, 3), startLine := 1, endLine := 1, isComment := false }
      , { value := "a", range := (4, 5), startLine := 1, endLine := 1, isComment := false }
      , { value := ",", range := (5, 6), startLine := 1, endLine := 1, isComment := false }
      , { value := "b", range := (7, 8), startLine := 1, endLine := 1, isComment := false }
      , { value := ";", range := (8, 9), startLine := 1, endLine := 1, isComment := false } ] }

/-- The `var a, b;` declaration statement at top level. -/
def c4node : VarDeclNode :=
  { kind := .varKind
    declarations :=
      [ { init := none, range := (4, 5) }, { init := none, range := (7, 8) } ]
    range := (0, 9)
    parentType := .program
    grandParentType := .otherType
    parentInit := false
    parentLeft := false
    prevSibling := none }

/-- Uniform mode `"never"`. -/
def c4opts : Options := computeOptions (some (.str .never))

/-- Uniform mode `"never"` (used to witness C5). -/
def c5wOpts : Options := computeOptions (some (.str .never))

/-- `var a, b;` at top level (used to witness C5). -/
def c5wNode : VarDeclNode :=
  { kind := .varKind
    declarations :=
      [ { init := none, range := (4, 5) }, { init := none, range := (7, 8) } ]
    range := (0, 9)
    parentType := .program
    grandParentType := .otherType
    parentInit := false
    parentLeft := false
    prevSibling := none }

/-- `if (foo) var x, y;`: the declaration is the unbraced body of an `if`
(used to witness C6). -/
def c6wNode : VarDeclNode :=
  { kind := .varKind
    declarations :=
      [ { init := none, range := (13, 14) }, { init := none, range := (16, 17) } ]
    range := (9, 18)
    parentType := .ifStatement
    grandParentType := .program
    parentInit := false
    parentLeft := false
    prevSibling := none }

/-- Both modes `ALWAYS` for `var` (used to witness C7). -/
def c7wOpts : Options := computeOptions (some (.str .always))

/-- `a, b = 1`: one uninitialized and one initialized declarator (used to
witness C7). -/
def c7wDecls : List DeclaratorNode :=
  [ { init := none, range := (4, 5) }
  , { init := some .otherExpr, range := (7, 12) } ]

/-- A one-function-deep starting state (as after entering `Program`), used to
witness C8. -/
def c8wState : AnalyzerState :=
  { functionStack := [freshScope], blockStack := [freshBlock] }

/-- `enter function; enter block; exit block; exit function` (used to witness
C8). -/
def c8wEvents : List TraversalEvent :=
  [.enterFunction, .enterBlock, .exitBlock, .exitFunction]

/-- The tokenisation of `var a, b;` (used to witness C9). -/
def c9wSc : SourceCode :=
  { text := "var a, b;".data
    tokens :=
      [ { value := "var", range := (0, 3), startLine := 1, endLine := 1, isComment := false }
      , { value := "a", range := (4, 5), startLine := 1, endLine := 1, isComment := false }
      , { value := ",", range := (5, 6), startLine := 1, endLine := 1, isComment := false }
      , { value := "b", range := (7, 8), startLine := 1, endLine := 1, isComment := false }
      , { value := ";", range := (8, 9), startLine := 1, endLine := 1, isComment := false } ] }

/-- The `var a, b;` declaration node (used to witness C9). -/
def c9wNode : VarDeclNode :=
  { kind := .varKind
    declarations :=
      [ { init := none, range := (4, 5) }, { init := none, range := (7, 8) } ]
    range := (0, 9)
    parentType := .program
    grandParentType := .otherType
    parentInit := false
    parentLeft := false
    prevSibling := none }

/-- A closure environment over the `var a, b;` source (used to witness C9). -/
def c9wEnvA : ClosureEnv :=
  { sourceCode := c9wSc
    state := { functionStack := [freshScope], blockStack := [freshBlock] } }

/-- The same source under a different stack state (used to witness C9). -/
def c9wEnvB : ClosureEnv :=
  { sourceCode := c9wSc
    state := { functionStack := [freshScope, freshScope]
               blockStack := [freshBlock, freshBlock] } }

/-- `var: { initialized: never, uninitialized: always }` (used to witness
C10). -/
def c10wOpts : Options :=
  { separateRequires := false
    varOpts := { initialized := some .never, uninitialized := some .always }
    letOpts := { initialized := none, uninitialized := none }
    constOpts := { initialized := none, uninitialized := none } }

/-- `for (var a in …) …` with the declaration as the `for-in` left-hand side
(used to witness C10). -/
def c10wNode : VarDeclNode :=
  { kind := .varKind
    declarations := [ { init := none, range := (9, 10) } ]
    range := (5, 10)
    parentType := .forInStatement
    grandParentType := .program
    parentInit := false
    parentLeft := true
    prevSibling := none }

/-- A scope record whose `uninitialized` bucket is already claimed (used to
witness C10). -/
def c10wScope : ScopeRec :=
  { initialized := false, uninitialized := true, required := false }

/-! ### Helper lemmas -/

/-- `recordOne` never clears a flag that is already set. -/
theorem recordOne_mono (opts : Options) (ty : Kind) (s : ScopeRec)
    (d : DeclaratorNode) :
    (s.initialized = true → (recordOne opts ty s d).initialized = true) ∧
    (s.uninitialized = true → (recordOne opts ty s d).uninitialized = true) ∧
    (s.required = true → (recordOne opts ty s d).required = true) := by
  unfold recordOne
  rcases d.init with _ | e <;> dsimp only <;> split <;> try split
  all_goals simp_all

/-- `recordTypes` never clears a flag that is already set. -/
theorem recordTypes_mono (opts : Options) (ty : Kind)
    (decls : List DeclaratorNode) (s : ScopeRec) :
    (s.initialized = true → (recordTypes opts ty decls s).initialized = true) ∧
    (s.uninitialized = true → (recordTypes opts ty decls s).uninitialized = true) ∧
    (s.required = true → (recordTypes opts ty decls s).required = true) := by
  induction decls generalizing s with
  | nil => simp [recordTypes]
  | cons d rest ih =>
      have h1 := recordOne_mono opts ty s d
      have h2 := ih (recordOne opts ty s d)
      simp only [recordTypes, List.foldl_cons] at *
      exact ⟨fun h => h2.1 (h1.1 h), fun h => h2.2.1 (h1.2.1 h),
             fun h => h2.2.2 (h1.2.2 h)⟩

/-- Under ALWAYS/ALWAYS, recording a nonempty declarator list into a fresh
scope record sets at least one flag, so the record changes. -/
theorem recordTypes_always_ne_fresh (opts : Options) (ty : Kind)
    (decls : List DeclaratorNode)
    (hInit : (optionsFor opts ty).initialized = some .always)
    (hUnin : (optionsFor opts ty).uninitialized = some .always)
    (hne : decls ≠ []) :
    recordTypes opts ty decls freshScope ≠ freshScope := by
  rcases decls with _ | ⟨d, rest⟩
  · exact absurd rfl hne
  · have hflag :
        (recordTypes opts ty (d :: rest) freshScope).initialized = true ∨
        (recordTypes opts ty (d :: rest) freshScope).uninitialized = true ∨
        (recordTypes opts ty (d :: rest) freshScope).required = true := by
      have hmono := recordTypes_mono opts ty rest (recordOne opts ty freshScope d)
      simp only [recordTypes, List.foldl_cons] at *
      rcases hd : d.init with _ | e
      · refine Or.inr (Or.inl (hmono.2.1 ?_))
        simp [recordOne, hd, hUnin]
      · by_cases hreq : opts.separateRequires ∧ isRequire d
        · refine Or.inr (Or.inr (hmono.2.2 ?_))
          simp [recordOne, hd, hInit, hreq]
        · refine Or.inl (hmono.1 ?_)
          simp [recordOne, hd, hInit, hreq]
    intro heq
    rw [heq] at hflag
    simp [freshScope] at hflag

/-- Every report of the `splitRequires` check carries that `messageId` and no
fix. -/
theorem checkRequiresPhase_mem (opts : Options) (node : VarDeclNode)
    (r : Report) (h : r ∈ checkRequiresPhase opts node) :
    r.messageId = .splitRequires ∧ r.fix = none := by
  unfold checkRequiresPhase at h
  split at h
  · simp at h
    subst h
    exact ⟨rfl, rfl⟩
  · simp at h

/-- Every report of the consecutive check is a combine-family diagnostic
gated by the corresponding `CONSECUTIVE` mode. -/
theorem checkConsecutivePhase_mem (opts : Options) (node : VarDeclNode)
    (r : Report) (h : r ∈ checkConsecutivePhase opts node) :
    (r.messageId = .combine ∧
       (optionsFor opts node.kind).initialized = some .consecutive ∧
       (optionsFor opts node.kind).uninitialized = some .consecutive) ∨
    (r.messageId = .combineInitialized ∧
       (optionsFor opts node.kind).initialized = some .consecutive) ∨
    (r.messageId = .combineUninitialized ∧
       (optionsFor opts node.kind).uninitialized = some .consecutive) := by
  rcases hp : node.prevSibling with _ | p
  · simp [checkConsecutivePhase, hp] at h
  · cases p with
    | otherStmt => simp [checkConsecutivePhase, hp] at h
    | varDecl pk pds =>
        simp only [checkConsecutivePhase, hp] at h
        split at h
        case isFalse => simp at h
        case isTrue hguard =>
          split at h
          case isTrue hc =>
            simp at h
            subst h
            exact Or.inl ⟨rfl, hc.1, hc.2⟩
          case isFalse =>
            split at h
            case isTrue hc =>
              simp at h
              subst h
              exact Or.inr (Or.inl ⟨rfl, hc.1⟩)
            case isFalse =>
              split at h
              case isTrue hc =>
                simp at h
                subst h
                exact Or.inr (Or.inr ⟨rfl, hc.1⟩)
              case isFalse => simp at h

/-- Every report of the scope-wide ALWAYS check is a combine-family
diagnostic gated by the corresponding `ALWAYS` mode. -/
theorem checkAlwaysPhase_mem (opts : Options) (node : VarDeclNode)
    (scope : ScopeRec) (r : Report)
    (h : r ∈ (checkAlwaysPhase opts node scope).fst) :
    (r.messageId = .combine ∧
       (optionsFor opts node.kind).initialized = some .always ∧
       (optionsFor opts node.kind).uninitialized = some .always) ∨
    (r.messageId = .combineInitialized ∧
       (optionsFor opts node.kind).initialized = some .always) ∨
    (r.messageId = .combineUninitialized ∧
       (optionsFor opts node.kind).uninitialized = some .always) := by
  by_cases h1 : (hasOnlyOneStatement opts node.kind node.declarations scope).fst = true
  · simp [checkAlwaysPhase, h1] at h
  · by_cases hI : (optionsFor opts node.kind).initialized = some Mode.always <;>
    by_cases hU : (optionsFor opts node.kind).uninitialized = some Mode.always <;>
    by_cases hCI : (countDeclarations node.declarations).initialized > 0 <;>
    by_cases hCU : (countDeclarations node.declarations).uninitialized > 0 <;>
    by_cases hD : node.parentLeft = true ∧
        (node.parentType = NodeType.forInStatement ∨
         node.parentType = NodeType.forOfStatement) <;>
    simp [checkAlwaysPhase, h1, hI, hU, hCI, hCU, hD] at h <;>
    (subst h; simp [hI, hU])

/-- Every report of the NEVER check is one of the three split-family
diagnostics and carries the `splitDeclarationsFix` fix. -/
theorem checkNeverPhase_sub (opts : Options) (node : VarDeclNode) :
    ∀ r ∈ checkNeverPhase opts node,
      isNeverSplitMsg r.messageId = true ∧ r.fix = splitDeclarationsFix node := by
  intro r h
  by_cases hP : node.parentType = NodeType.forStatement <;>
  by_cases hPI : node.parentInit = true <;>
  by_cases htot : (countDeclarations node.declarations).uninitialized +
      (countDeclarations node.declarations).initialized > 1 <;>
  by_cases hIN : (optionsFor opts node.kind).initialized = some Mode.never <;>
  by_cases hUN : (optionsFor opts node.kind).uninitialized = some Mode.never <;>
  by_cases hCI : (countDeclarations node.declarations).initialized > 0 <;>
  by_cases hCU : (countDeclarations node.declarations).uninitialized > 0 <;>
  simp [checkNeverPhase, hP, hPI, htot, hIN, hUN, hCI, hCU] at h <;>
  (subst h; exact ⟨rfl, rfl⟩)

/-- The NEVER check emits at most one report. -/
theorem checkNeverPhase_len (opts : Options) (node : VarDeclNode) :
    (checkNeverPhase opts node).length ≤ 1 := by
  by_cases hP : node.parentType = NodeType.forStatement <;>
  by_cases hPI : node.parentInit = true <;>
  by_cases htot : (countDeclarations node.declarations).uninitialized +
      (countDeclarations node.declarations).initialized > 1 <;>
  by_cases hIN : (optionsFor opts node.kind).initialized = some Mode.never <;>
  by_cases hUN : (optionsFor opts node.kind).uninitialized = some Mode.never <;>
  by_cases hCI : (countDeclarations node.declarations).initialized > 0 <;>
  by_cases hCU : (countDeclarations node.declarations).uninitialized > 0 <;>
  simp [checkNeverPhase, hP, hPI, htot, hIN, hUN, hCI, hCU]

/-- The NEVER check is skipped entirely for the init clause of a counted
`for` header. -/
theorem checkNeverPhase_forInit (opts : Options) (node : VarDeclNode)
    (hTy : node.parentType = .forStatement) (hInit : node.parentInit = true) :
    checkNeverPhase opts node = [] := by
  simp [checkNeverPhase, hTy, hInit]

/-- `countMessage` distributes over append. -/
theorem countMessage_append (l1 l2 : List Report) (m : MessageId) :
    countMessage (l1 ++ l2) m = countMessage l1 m + countMessage l2 m := by
  simp [countMessage, List.filter_append]

/-- A report list none of whose members carry `m` counts zero for `m`. -/
theorem countMessage_eq_zero {l : List Report} {m : MessageId}
    (h : ∀ r ∈ l, r.messageId ≠ m) : countMessage l m = 0 := by
  unfold countMessage
  rw [List.length_eq_zero, List.filter_eq_nil_iff]
  intro r hr
  simp [h r hr]

/-- When neither mode of the statement's kind is `ALWAYS`, the scope-wide
ALWAYS check reports nothing. -/
theorem checkAlwaysPhase_nil (opts : Options) (node : VarDeclNode)
    (scope : ScopeRec)
    (hI : (optionsFor opts node.kind).initialized ≠ some Mode.always)
    (hU : (optionsFor opts node.kind).uninitialized ≠ some Mode.always) :
    (checkAlwaysPhase opts node scope).fst = [] := by
  rcases hl : (checkAlwaysPhase opts node scope).fst with _ | ⟨r, rest⟩
  · rfl
  · exfalso
    have hr : r ∈ (checkAlwaysPhase opts node scope).fst := by
      rw [hl]; exact List.mem_cons_self r rest
    rcases checkAlwaysPhase_mem opts node scope r hr with
      ⟨_, h1, _⟩ | ⟨_, h1⟩ | ⟨_, h1⟩
    exacts [hI h1, hI h1, hU h1]

/-- The output of `checkVariableDeclaration` is the concatenation of the four
phases, with the NEVER check dropped when the ALWAYS check early-returned. -/
theorem checkVariableDeclaration_fst (opts : Options) (node : VarDeclNode)
    (scope : ScopeRec) :
    (checkVariableDeclaration opts node scope).fst =
      checkRequiresPhase opts node ++ checkConsecutivePhase opts node ++
        (checkAlwaysPhase opts node scope).fst ++
        (if (checkAlwaysPhase opts node scope).snd.snd then []
         else checkNeverPhase opts node) := by
  unfold checkVariableDeclaration
  by_cases he : (checkAlwaysPhase opts node scope).snd.snd = true <;> simp [he]

/-! ### C3: the both-ALWAYS violation and the special-call exemption -/

/--
C3, counterexample.  With both modes `ALWAYS` and the scope's `initialized`
flag already set, the mixed statement `var a = require("x"), b = 1;` (one
special-call declarator, one plain declarator) is *not* classified as a
violation: `hasOnlyOneStatement` returns `true`, because the code exempts any
statement with at least one `require` declarator
(`declarations.some(isRequire)`), not only statements consisting entirely of
special calls.  This refutes the claim that such a statement "is still a
violation".
-/
theorem c3_counterexample :
    mixedRequires c3decls = true ∧
    (optionsFor c3opts Kind.varKind).initialized = some Mode.always ∧
    (optionsFor c3opts Kind.varKind).uninitialized = some Mode.always ∧
    c3scope.initialized = true ∧
    (hasOnlyOneStatement c3opts Kind.varKind c3decls c3scope).fst = true := by
  decide

/--
C3, amended.  For a statement whose kind has both modes `ALWAYS` in a scope
whose `initialized` or `uninitialized` flag is already set: it is a violation
unless it contains at least one special-call declarator; a statement with at
least one special call escapes this check and is a violation only if its
uninitialized bucket clashes with the scope's `uninitialized` flag or the
scope's `required` flag is already set.
-/
theorem c3_always_violation (opts : Options) (ty : Kind)
    (decls : List DeclaratorNode) (scope : ScopeRec)
    (hInitM : (optionsFor opts ty).initialized = some Mode.always)
    (hUninM : (optionsFor opts ty).uninitialized = some Mode.always)
    (hFlag : scope.initialized = true ∨ scope.uninitialized = true) :
    (decls.any isRequire = false →
       (hasOnlyOneStatement opts ty decls scope).fst = false)
  ∧ (decls.any isRequire = true →
     ¬((countDeclarations decls).uninitialized > 0 ∧ scope.uninitialized = true) →
     scope.required = false →
       (hasOnlyOneStatement opts ty decls scope).fst = true) := by
  constructor
  · intro hreq
    rcases hFlag with hf | hf <;>
      simp [hasOnlyOneStatement, hInitM, hUninM, hreq, hf]
  · intro hreq h2 h3
    by_cases hcu : (countDeclarations decls).uninitialized > 0
    · have hsu : scope.uninitialized = false := by
        by_cases hb : scope.uninitialized = true
        · exact absurd ⟨hcu, hb⟩ h2
        · simpa using hb
      simp [hasOnlyOneStatement, hInitM, hUninM, hreq, hsu, h3, hcu]
    · simp [hasOnlyOneStatement, hInitM, hUninM, hreq, h3, hcu]

/-- C3, witness: a plain (no special call) second initialized statement under
both-ALWAYS with the scope's `initialized` flag set is a violation. -/
theorem c3_witness :
    (hasOnlyOneStatement c3opts Kind.varKind c3wDecls c3scope).fst = false :=
  (c3_always_violation c3opts Kind.varKind c3wDecls c3scope rfl rfl
    (Or.inl rfl)).1 (by decide)

/-! ### C7: scope-record update discipline of `hasOnlyOneStatement` -/

/--
C7.  `hasOnlyOneStatement` leaves the scope record unchanged exactly on the
violation paths and records the statement via `recordTypes` exactly on the
no-violation path; and a lone first statement in a fresh scope under
ALWAYS/ALWAYS is classified as no violation and changes the scope record
(exactly the one `recordTypes` mutation).
-/
theorem c7_scope_update (opts : Options) (ty : Kind)
    (decls : List DeclaratorNode) (scope : ScopeRec) :
    ((hasOnlyOneStatement opts ty decls scope).fst = false →
       (hasOnlyOneStatement opts ty decls scope).snd = scope)
  ∧ ((hasOnlyOneStatement opts ty decls scope).fst = true →
       (hasOnlyOneStatement opts ty decls scope).snd =
         recordTypes opts ty decls scope)
  ∧ (scope = freshScope →
     (optionsFor opts ty).initialized = some Mode.always →
     (optionsFor opts ty).uninitialized = some Mode.always →
     decls ≠ [] →
       (hasOnlyOneStatement opts ty decls scope).fst = true ∧
       (hasOnlyOneStatement opts ty decls scope).snd ≠ freshScope) := by
  have hcases :
      hasOnlyOneStatement opts ty decls scope = (false, scope) ∨
      hasOnlyOneStatement opts ty decls scope =
        (true, recordTypes opts ty decls scope) := by
    simp only [hasOnlyOneStatement]
    split
    · exact Or.inl rfl
    · split
      · exact Or.inl rfl
      · split
        · exact Or.inl rfl
        · split
          · exact Or.inl rfl
          · exact Or.inr rfl
  refine ⟨?_, ?_, ?_⟩
  · intro h
    rcases hcases with hc | hc
    · rw [hc]
    · rw [hc] at h; simp at h
  · intro h
    rcases hcases with hc | hc
    · rw [hc] at h; simp at h
    · rw [hc]
  · intro hfresh hI hU hne
    subst hfresh
    have hres : hasOnlyOneStatement opts ty decls freshScope =
        (true, recordTypes opts ty decls freshScope) := by
      simp [hasOnlyOneStatement, freshScope]
    rw [hres]
    exact ⟨rfl, recordTypes_always_ne_fresh opts ty decls hI hU hne⟩

/-- C7, witness: `var a, b = 1;` as the first statement of a fresh scope under
uniform `"always"` is no violation and updates the scope record. -/
theorem c7_witness :
    (hasOnlyOneStatement c7wOpts Kind.varKind c7wDecls freshScope).fst = true ∧
    (hasOnlyOneStatement c7wOpts Kind.varKind c7wDecls freshScope).snd ≠
      freshScope :=
  (c7_scope_update c7wOpts Kind.varKind c7wDecls freshScope).2.2 rfl rfl rfl
    (by decide)

/-! ### C1: the `splitRequires` diagnostic -/

/--
C1, counterexample.  With `separateRequires: true` but per-kind mode
`"never"`, the mixed statement `var a = require("x"), b = 1;` produces *no*
`splitRequires` diagnostic (its only diagnostic is the generic `split`): the
`splitRequires` check is gated by `options[type].initialized === MODE_ALWAYS`,
so it is not emitted "regardless of the configured modes" as claimed.
-/
theorem c1_counterexample :
    c1opts.separateRequires = true ∧
    mixedRequires c1node.declarations = true ∧
    countMessage (checkVariableDeclaration c1opts c1node freshScope).fst
      MessageId.splitRequires = 0 ∧
    (checkVariableDeclaration c1opts c1node freshScope).fst.map
      Report.messageId = [MessageId.split] := by
  decide

/--
C1, amended.  When `separateRequires` is enabled, the statement mixes
special-call and non-special-call declarators, *and the kind's
initializedMode is ALWAYS*, exactly one `splitRequires` diagnostic is
reported for the statement, for every scope record (in particular regardless
of the uninitialized mode).
-/
theorem c1_split_requires (opts : Options) (node : VarDeclNode)
    (hSep : opts.separateRequires = true)
    (hMix : mixedRequires node.declarations = true)
    (hInit : (optionsFor opts node.kind).initialized = some Mode.always) :
    ∀ scope : ScopeRec,
      countMessage (checkVariableDeclaration opts node scope).fst
        MessageId.splitRequires = 1 := by
  intro scope
  have h1 : countMessage (checkRequiresPhase opts node) MessageId.splitRequires
      = 1 := by
    unfold checkRequiresPhase
    rw [if_pos ⟨hInit, hSep, hMix⟩]
    simp [countMessage]
  have h2 : countMessage (checkConsecutivePhase opts node)
      MessageId.splitRequires = 0 := by
    refine countMessage_eq_zero fun r hr => ?_
    rcases checkConsecutivePhase_mem opts node r hr with
      ⟨hid, _⟩ | ⟨hid, _⟩ | ⟨hid, _⟩ <;> simp [hid]
  have h3 : countMessage (checkAlwaysPhase opts node scope).fst
      MessageId.splitRequires = 0 := by
    refine countMessage_eq_zero fun r hr => ?_
    rcases checkAlwaysPhase_mem opts node scope r hr with
      ⟨hid, _⟩ | ⟨hid, _⟩ | ⟨hid, _⟩ <;> simp [hid]
  have h4 : countMessage (checkNeverPhase opts node)
      MessageId.splitRequires = 0 := by
    refine countMessage_eq_zero fun r hr => ?_
    have hm := (checkNeverPhase_sub opts node r hr).1
    cases hid : r.messageId <;> simp_all [isNeverSplitMsg]
  rw [checkVariableDeclaration_fst, countMessage_append, countMessage_append,
    countMessage_append, h1, h2, h3]
  by_cases he : (checkAlwaysPhase opts node scope).snd.snd = true
  · rw [if_pos he]
    simp [countMessage]
  · rw [if_neg he, h4]

/-- C1, witness: with `separateRequires: true` and `var: "always"`, the mixed
statement yields exactly one `splitRequires`. -/
theorem c1_witness :
    countMessage (checkVariableDeclaration c1wOpts c1node freshScope).fst
      MessageId.splitRequires = 1 :=
  c1_split_requires c1wOpts c1node rfl (by decide) rfl freshScope

/-! ### C2: combine-family (ALWAYS check) vs split-family (NEVER check) -/

/--
C2, counterexample.  Under the mixed policy
`var: { initialized: "always", uninitialized: "never" }`, the statement
`var a = 1, b;` evaluated against a scope whose `initialized` flag is set
receives *both* a combine-family diagnostic from the scope-wide ALWAYS check
(`combineInitialized`) and a split-family diagnostic from the NEVER check
(`splitUninitialized`), refuting the claim for arbitrary policy
configurations.
-/
theorem c2_counterexample :
    (checkAlwaysPhase c2opts c2node c2scope).fst.map Report.messageId =
      [MessageId.combineInitialized] ∧
    (checkNeverPhase c2opts c2node).map Report.messageId =
      [MessageId.splitUninitialized] ∧
    (checkVariableDeclaration c2opts c2node c2scope).fst.map Report.messageId =
      [MessageId.combineInitialized, MessageId.splitUninitialized] := by
  decide

/--
C2, amended.  When the statement's kind has per-kind singleton modes (its
initializedMode equals its uninitializedMode, as under configuration shapes
(a) and (b)), a single evaluation never produces both a combine-family
report from the scope-wide ALWAYS check and a split-family report from the
NEVER check: one of the two checks reports nothing.
-/
theorem c2_join_split_exclusive (opts : Options) (node : VarDeclNode)
    (scope : ScopeRec)
    (h : (optionsFor opts node.kind).initialized =
         (optionsFor opts node.kind).uninitialized) :
    (checkAlwaysPhase opts node scope).fst = [] ∨
    checkNeverPhase opts node = [] := by
  rcases hm : (optionsFor opts node.kind).initialized with _ | m
  · exact Or.inl (checkAlwaysPhase_nil opts node scope (by simp [hm])
      (by simp [← h, hm]))
  · cases m with
    | always =>
        have hU : (optionsFor opts node.kind).uninitialized = some Mode.always := by
          rw [← h, hm]
        exact Or.inr (by simp [checkNeverPhase, hm, hU])
    | never =>
        exact Or.inl (checkAlwaysPhase_nil opts node scope (by simp [hm])
          (by simp [← h, hm]))
    | consecutive =>
        exact Or.inl (checkAlwaysPhase_nil opts node scope (by simp [hm])
          (by simp [← h, hm]))

/-- C2, witness: under uniform singleton mode `"never"` the two checks are
exclusive on `var a = 1, b;`. -/
theorem c2_witness :
    (checkAlwaysPhase c2wOpts c2node freshScope).fst = [] ∨
    checkNeverPhase c2wOpts c2node = [] :=
  c2_join_split_exclusive c2wOpts c2node freshScope rfl

/-! ### C10: the for-in/for-of early return of the ALWAYS check -/

/--
C10.  For a declaration that is the left-hand side of a `for-in`/`for-of`
statement, when its kind's uninitializedMode is `ALWAYS`, its initializedMode
is not `ALWAYS`, it has at least one uninitialized declarator, and the
scope-wide ALWAYS check found a violation, the checker returns early: the
ALWAYS check sets its abort flag, the output is exactly the first three
phases with the NEVER check skipped entirely, and no `combineUninitialized`
diagnostic appears in the output.
-/
theorem c10_forin_early_return (opts : Options) (node : VarDeclNode)
    (scope : ScopeRec)
    (hLeft : node.parentLeft = true)
    (hTy : node.parentType = NodeType.forInStatement ∨
           node.parentType = NodeType.forOfStatement)
    (hUnin : (optionsFor opts node.kind).uninitialized = some Mode.always)
    (hInit : (optionsFor opts node.kind).initialized ≠ some Mode.always)
    (hCount : (countDeclarations node.declarations).uninitialized > 0)
    (hViol : (hasOnlyOneStatement opts node.kind node.declarations scope).fst
      = false) :
    (checkAlwaysPhase opts node scope).snd.snd = true ∧
    (checkVariableDeclaration opts node scope).fst =
      checkRequiresPhase opts node ++ checkConsecutivePhase opts node ++
        (checkAlwaysPhase opts node scope).fst ∧
    ∀ r ∈ (checkVariableDeclaration opts node scope).fst,
      r.messageId ≠ MessageId.combineUninitialized := by
  have hAlways : checkAlwaysPhase opts node scope =
      ([], (hasOnlyOneStatement opts node.kind node.declarations scope).snd,
       true) := by
    rcases hTy with hTy | hTy <;>
      simp [checkAlwaysPhase, hViol, hInit, hUnin, hCount, hLeft, hTy]
  have hEarly : (checkAlwaysPhase opts node scope).snd.snd = true := by
    rw [hAlways]
  have hOut : (checkVariableDeclaration opts node scope).fst =
      checkRequiresPhase opts node ++ checkConsecutivePhase opts node ++
        (checkAlwaysPhase opts node scope).fst := by
    rw [checkVariableDeclaration_fst, if_pos hEarly, List.append_nil]
  refine ⟨hEarly, hOut, ?_⟩
  intro r hr
  rw [hOut] at hr
  rcases List.mem_append.mp hr with hr2 | hr2
  · rcases List.mem_append.mp hr2 with hr3 | hr3
    · rw [(checkRequiresPhase_mem opts node r hr3).1]
      simp
    · rcases checkConsecutivePhase_mem opts node r hr3 with
        ⟨hid, _⟩ | ⟨hid, _⟩ | ⟨hid, hcons⟩
      · rw [hid]; simp
      · rw [hid]; simp
      · rw [hUnin] at hcons
        simp at hcons
  · rw [hAlways] at hr2
    simp at hr2

/-- C10, witness: `for (var a in obj) …` under
`var: { initialized: "never", uninitialized: "always" }` with the scope's
`uninitialized` flag set aborts before the NEVER check. -/
theorem c10_witness :
    (checkAlwaysPhase c10wOpts c10wNode c10wScope).snd.snd = true ∧
    (checkVariableDeclaration c10wOpts c10wNode c10wScope).fst =
      checkRequiresPhase c10wOpts c10wNode ++
        checkConsecutivePhase c10wOpts c10wNode ++
        (checkAlwaysPhase c10wOpts c10wNode c10wScope).fst ∧
    ∀ r ∈ (checkVariableDeclaration c10wOpts c10wNode c10wScope).fst,
      r.messageId ≠ MessageId.combineUninitialized :=
  c10_forin_early_return c10wOpts c10wNode c10wScope rfl (Or.inl rfl) rfl
    (by decide) (by decide) (by decide)

/-! ### C5: the NEVER-split check -/

/--
C5.  At most one of the three NEVER-split diagnostics appears in any
evaluation's output; for the init clause of a counted `for` header none of
the three appears; and otherwise, on a statement with more than one
declarator, the NEVER check selects its single diagnostic in priority order:
generic `split` when both modes are `NEVER`, else `splitInitialized` when
initializedMode is `NEVER` with at least one initialized declarator, else
`splitUninitialized` when uninitializedMode is `NEVER` with at least one
uninitialized declarator.
-/
theorem c5_never_split (opts : Options) (node : VarDeclNode)
    (scope : ScopeRec) :
    ((checkVariableDeclaration opts node scope).fst.filter
        (fun r => isNeverSplitMsg r.messageId)).length ≤ 1
  ∧ (node.parentType = NodeType.forStatement → node.parentInit = true →
      ∀ r ∈ (checkVariableDeclaration opts node scope).fst,
        isNeverSplitMsg r.messageId = false)
  ∧ (¬(node.parentType = NodeType.forStatement ∧ node.parentInit = true) →
     (countDeclarations node.declarations).uninitialized +
       (countDeclarations node.declarations).initialized > 1 →
       ((optionsFor opts node.kind).initialized = some Mode.never ∧
        (optionsFor opts node.kind).uninitialized = some Mode.never →
          (checkNeverPhase opts node).map Report.messageId = [MessageId.split])
     ∧ (¬((optionsFor opts node.kind).initialized = some Mode.never ∧
          (optionsFor opts node.kind).uninitialized = some Mode.never) →
        (optionsFor opts node.kind).initialized = some Mode.never →
        (countDeclarations node.declarations).initialized > 0 →
          (checkNeverPhase opts node).map Report.messageId =
            [MessageId.splitInitialized])
     ∧ (¬((optionsFor opts node.kind).initialized = some Mode.never ∧
          (optionsFor opts node.kind).uninitialized = some Mode.never) →
        ¬((optionsFor opts node.kind).initialized = some Mode.never ∧
          (countDeclarations node.declarations).initialized > 0) →
        (optionsFor opts node.kind).uninitialized = some Mode.never →
        (countDeclarations node.declarations).uninitialized > 0 →
          (checkNeverPhase opts node).map Report.messageId =
            [MessageId.splitUninitialized])) := by
  have hreq : ∀ r ∈ checkRequiresPhase opts node,
      isNeverSplitMsg r.messageId = false := by
    intro r hr
    rw [(checkRequiresPhase_mem opts node r hr).1]
    rfl
  have hcons : ∀ r ∈ checkConsecutivePhase opts node,
      isNeverSplitMsg r.messageId = false := by
    intro r hr
    rcases checkConsecutivePhase_mem opts node r hr with
      ⟨hid, _⟩ | ⟨hid, _⟩ | ⟨hid, _⟩ <;> rw [hid] <;> rfl
  have halw : ∀ r ∈ (checkAlwaysPhase opts node scope).fst,
      isNeverSplitMsg r.messageId = false := by
    intro r hr
    rcases checkAlwaysPhase_mem opts node scope r hr with
      ⟨hid, _⟩ | ⟨hid, _⟩ | ⟨hid, _⟩ <;> rw [hid] <;> rfl
  refine ⟨?_, ?_, ?_⟩
  · rw [checkVariableDeclaration_fst]
    rw [List.filter_append, List.filter_append, List.filter_append]
    rw [List.filter_eq_nil_iff.mpr (by intro r hr; simp [hreq r hr]),
        List.filter_eq_nil_iff.mpr (by intro r hr; simp [hcons r hr]),
        List.filter_eq_nil_iff.mpr (by intro r hr; simp [halw r hr])]
    simp only [List.nil_append, List.length_append, List.length_nil]
    calc ((if (checkAlwaysPhase opts node scope).snd.snd then []
            else checkNeverPhase opts node).filter
              (fun r => isNeverSplitMsg r.messageId)).length
        ≤ (if (checkAlwaysPhase opts node scope).snd.snd then []
            else checkNeverPhase opts node).length :=
          List.length_filter_le _ _
      _ ≤ 1 := by
          by_cases he : (checkAlwaysPhase opts node scope).snd.snd = true
          · simp [he]
          · rw [if_neg he]
            exact checkNeverPhase_len opts node
  · intro hTy hInit r hr
    rw [checkVariableDeclaration_fst] at hr
    rcases List.mem_append.mp hr with hr2 | hr2
    · rcases List.mem_append.mp hr2 with hr3 | hr3
      · rcases List.mem_append.mp hr3 with hr4 | hr4
        · exact hreq r hr4
        · exact hcons r hr4
      · exact halw r hr3
    · by_cases he : (checkAlwaysPhase opts node scope).snd.snd = true
      · rw [if_pos he] at hr2; simp at hr2
      · rw [if_neg he, checkNeverPhase_forInit opts node hTy hInit] at hr2
        simp at hr2
  · intro hskip htot
    have hskip2 : node.parentType ≠ NodeType.forStatement ∨
        ¬ node.parentInit = true := by tauto
    refine ⟨?_, ?_, ?_⟩
    · rintro ⟨hIN, hUN⟩
      rcases hskip2 with hsk | hsk <;>
        simp [checkNeverPhase, hsk, htot, hIN, hUN]
    · intro hnboth hIN hCI
      have hUNne : (optionsFor opts node.kind).uninitialized ≠ some Mode.never :=
        fun hc => hnboth ⟨hIN, hc⟩
      rcases hskip2 with hsk | hsk <;>
        simp [checkNeverPhase, hsk, htot, hIN, hUNne, hCI]
    · intro hnboth hni hUN hCU
      have hINne : (optionsFor opts node.kind).initialized ≠ some Mode.never :=
        fun hc => hnboth ⟨hc, hUN⟩
      rcases hskip2 with hsk | hsk <;>
        simp [checkNeverPhase, hsk, htot, hINne, hUN, hCU]

/-- C5, witness: under uniform `"never"`, `var a, b;` at top level gets the
generic `split` from the NEVER check. -/
theorem c5_witness :
    (checkNeverPhase c5wOpts c5wNode).map Report.messageId =
      [MessageId.split] :=
  ((c5_never_split c5wOpts c5wNode freshScope).2.2 (by decide) (by decide)).1
    ⟨rfl, rfl⟩

/-! ### C6: the unsafe-split veto -/

/--
C6.  When the declaration's enclosing context (the export statement's parent
for re-exported declarations, the declaration's parent otherwise) is not a
syntactic statement list, `splitDeclarations` returns `null`, and — for every
policy configuration and scope — every split-family diagnostic emitted for
the statement carries no fix: the diagnostic degrades to a plain unfixed
report.
-/
theorem c6_split_veto (node : VarDeclNode)
    (h : isInStatementList
        (if node.parentType = NodeType.exportNamedDeclaration then
          node.grandParentType
         else node.parentType) = false) :
    splitDeclarationsFix node = none ∧
    ∀ (opts : Options) (scope : ScopeRec) (r : Report),
      r ∈ (checkVariableDeclaration opts node scope).fst →
      isNeverSplitMsg r.messageId = true → r.fix = none := by
  have hfix : splitDeclarationsFix node = none := by
    simp [splitDeclarationsFix, h]
  refine ⟨hfix, ?_⟩
  intro opts scope r hr hmsg
  rw [checkVariableDeclaration_fst] at hr
  rcases List.mem_append.mp hr with hr2 | hr2
  · rcases List.mem_append.mp hr2 with hr3 | hr3
    · rcases List.mem_append.mp hr3 with hr4 | hr4
      · rw [(checkRequiresPhase_mem opts node r hr4).1] at hmsg
        simp [isNeverSplitMsg] at hmsg
      · rcases checkConsecutivePhase_mem opts node r hr4 with
          ⟨hid, _⟩ | ⟨hid, _⟩ | ⟨hid, _⟩ <;>
          rw [hid] at hmsg <;> simp [isNeverSplitMsg] at hmsg
    · rcases checkAlwaysPhase_mem opts node scope r hr3 with
        ⟨hid, _⟩ | ⟨hid, _⟩ | ⟨hid, _⟩ <;>
        rw [hid] at hmsg <;> simp [isNeverSplitMsg] at hmsg
  · by_cases he : (checkAlwaysPhase opts node scope).snd.snd = true
    · rw [if_pos he] at hr2
      simp at hr2
    · rw [if_neg he] at hr2
      rw [(checkNeverPhase_sub opts node r hr2).2, hfix]

/-- C6, witness: `if (foo) var x, y;` never receives a split fix. -/
theorem c6_witness : splitDeclarationsFix c6wNode = none :=
  (c6_split_veto c6wNode (by decide)).1

/-! ### C4: the `"never"` split fix on `var a, b;` -/

/--
C4, counterexample.  Under uniform mode `"never"`, `var a, b;` yields exactly
one generic `split` diagnostic carrying the split fix, but applying the
generated fix produces `var a; var b;` — the comma is replaced by `"; var"`
on the same line — and *not* the claimed two-line output `var a;\nvar b;`.
-/
theorem c4_counterexample :
    (checkVariableDeclaration c4opts c4node freshScope).fst =
      [{ messageId := MessageId.split, fix := some (.split c4node) }] ∧
    applyEdits c4sc.text (evalSplitFix c4sc c4node) ≠ "var a;\nvar b;".data := by
  decide

/--
C4, amended.  Under uniform mode `"never"`, `var a, b;` yields exactly one
generic `split` diagnostic whose fix replaces the separating comma with
`"; var"`, so the fixed output is `var a; var b;` (the two declarations end
up as separate statements on the same line, not on separate lines).
-/
theorem c4_split_fix_output :
    (checkVariableDeclaration c4opts c4node freshScope).fst =
      [{ messageId := MessageId.split, fix := some (.split c4node) }] ∧
    evalSplitFix c4sc c4node = [Edit.replaceRange (5, 6) "; var".data] ∧
    applyEdits c4sc.text (evalSplitFix c4sc c4node) = "var a; var b;".data := by
  decide

/-! ### C9: purity and determinism of the fix closures -/

/--
C9.  Evaluating a join-fix or split-fix closure leaves the captured analyzer
state (the scope stacks) unchanged, and its edit list depends only on the
source code and the captured AST data: two environments with the same source
yield identical edits.
-/
theorem c9_fix_closure_pure (fx : FixClosure) (env env2 : ClosureEnv)
    (h : env.sourceCode = env2.sourceCode) :
    (evalFixClosure env fx).snd = env.state ∧
    (evalFixClosure env fx).fst = (evalFixClosure env2 fx).fst := by
  cases fx <;> simp [evalFixClosure, h]

/-- C9, witness: the split fix for `var a, b;` evaluated under two different
stack states returns the same edits and leaves each state unchanged. -/
theorem c9_witness :
    (evalFixClosure c9wEnvA (.split c9wNode)).snd = c9wEnvA.state ∧
    (evalFixClosure c9wEnvA (.split c9wNode)).fst =
      (evalFixClosure c9wEnvB (.split c9wNode)).fst :=
  c9_fix_closure_pure (.split c9wNode) c9wEnvA c9wEnvB rfl

/-! ### C8: the scope stacks under balanced traversal -/

/-- Running an appended event list composes the runs. -/
theorem runEvents_append (s : AnalyzerState) (p q : List TraversalEvent) :
    runEvents s (p ++ q) = runEvents (runEvents s p) q := by
  simp [runEvents, List.foldl_append]

/-- Popping right after pushing restores the state. -/
theorem endFunction_startFunction (s : AnalyzerState) :
    endFunction (startFunction s) = s := by
  simp [startFunction, startBlock, endFunction, endBlock]

/-- Popping right after pushing restores the state. -/
theorem endBlock_startBlock (s : AnalyzerState) :
    endBlock (startBlock s) = s := by
  simp [startBlock, endBlock]

/-- A balanced event sequence restores the stacks to their prior state. -/
theorem balanced_runEvents {evs : List TraversalEvent} (h : Balanced evs) :
    ∀ s, runEvents s evs = s := by
  induction h with
  | nil => intro s; rfl
  | app _ _ ihx ihy =>
      intro s
      rw [runEvents_append, ihx, ihy]
  | fn _ ihx =>
      intro s
      rw [runEvents_append, runEvents_append]
      have h1 : runEvents s [TraversalEvent.enterFunction] = startFunction s := rfl
      rw [h1, ihx]
      exact endFunction_startFunction s
  | blk _ ihx =>
      intro s
      rw [runEvents_append, runEvents_append]
      have h1 : runEvents s [TraversalEvent.enterBlock] = startBlock s := rfl
      rw [h1, ihx]
      exact endBlock_startBlock s

/-- Along any prefix of a balanced event sequence, neither stack ever gets
shorter than it was at the start. -/
theorem balanced_prefix_le {evs : List TraversalEvent} (h : Balanced evs) :
    ∀ (s : AnalyzerState) (p q : List TraversalEvent), p ++ q = evs →
      s.functionStack.length ≤ (runEvents s p).functionStack.length ∧
      s.blockStack.length ≤ (runEvents s p).blockStack.length := by
  induction h with
  | nil =>
      intro s p q hpq
      have hp : p = [] := (List.append_eq_nil.mp hpq).1
      subst hp
      exact ⟨le_refl _, le_refl _⟩
  | app hx hy ihx ihy =>
      rename_i xs ys
      intro s p q hpq
      rcases List.append_eq_append_iff.mp hpq with ⟨a, ha1, _⟩ | ⟨c, hc1, _⟩
      · exact ihx s p a ha1.symm
      · have hys : c ++ q = ys := by
          rw [hc1] at hpq
          rw [List.append_assoc] at hpq
          exact (List.append_cancel_left hpq)
        have h1 := ihy s c q hys
        rw [hc1, runEvents_append, balanced_runEvents hx]
        exact h1
  | fn hx ihx =>
      rename_i xs
      intro s p q hpq
      cases p with
      | nil => exact ⟨le_refl _, le_refl _⟩
      | cons e p1 =>
          simp only [List.cons_append, List.nil_append, List.append_assoc]
            at hpq
          injection hpq with he hrest
          subst he
          have hrun : runEvents s (TraversalEvent.enterFunction :: p1) =
              runEvents (startFunction s) p1 := rfl
          have hlf : (startFunction s).functionStack.length =
              s.functionStack.length + 1 := by simp [startFunction, startBlock]
          have hlb : (startFunction s).blockStack.length =
              s.blockStack.length + 1 := by simp [startFunction, startBlock]
          rcases List.append_eq_append_iff.mp hrest with
            ⟨a, hxs, _⟩ | ⟨c, hp1, hd⟩
          · have hih := ihx (startFunction s) p1 a hxs.symm
            rw [hrun]
            constructor
            · omega
            · omega
          · cases c with
            | nil =>
                simp only [List.append_nil] at hp1
                subst hp1
                rw [hrun, balanced_runEvents hx]
                constructor
                · omega
                · omega
            | cons e2 cs =>
                simp only [List.cons_append] at hd
                injection hd with he2 hnil
                obtain ⟨hcs, hq⟩ := List.append_eq_nil.mp hnil.symm
                subst hcs
                subst hq
                subst he2
                subst hp1
                have hs : runEvents s (TraversalEvent.enterFunction ::
                    (xs ++ [TraversalEvent.exitFunction])) = s :=
                  balanced_runEvents (Balanced.fn hx) s
                rw [hs]
                exact ⟨le_refl _, le_refl _⟩
  | blk hx ihx =>
      rename_i xs
      intro s p q hpq
      cases p with
      | nil => exact ⟨le_refl _, le_refl _⟩
      | cons e p1 =>
          simp only [List.cons_append, List.nil_append, List.append_assoc]
            at hpq
          injection hpq with he hrest
          subst he
          have hrun : runEvents s (TraversalEvent.enterBlock :: p1) =
              runEvents (startBlock s) p1 := rfl
          have hlf : (startBlock s).functionStack.length =
              s.functionStack.length := by simp [startBlock]
          have hlb : (startBlock s).blockStack.length =
              s.blockStack.length + 1 := by simp [startBlock]
          rcases List.append_eq_append_iff.mp hrest with
            ⟨a, hxs, _⟩ | ⟨c, hp1, hd⟩
          · have hih := ihx (startBlock s) p1 a hxs.symm
            rw [hrun]
            constructor
            · omega
            · omega
          · cases c with
            | nil =>
                simp only [List.append_nil] at hp1
                subst hp1
                rw [hrun, balanced_runEvents hx]
                constructor
                · omega
                · omega
            | cons e2 cs =>
                simp only [List.cons_append] at hd
                injection hd with he2 hnil
                obtain ⟨hcs, hq⟩ := List.append_eq_nil.mp hnil.symm
                subst hcs
                subst hq
                subst he2
                subst hp1
                have hs : runEvents s (TraversalEvent.enterBlock ::
                    (xs ++ [TraversalEvent.exitBlock])) = s :=
                  balanced_runEvents (Balanced.blk hx) s
                rw [hs]
                exact ⟨le_refl _, le_refl _⟩

/--
C8.  Entering a function pushes exactly one fresh function record and one
fresh block record, entering a block pushes exactly one fresh block record,
the matching exits pop in LIFO order (an enter followed by its exit restores
the state), every balanced enter/exit sequence restores both stacks, at every
point during a balanced traversal from a state with nonempty stacks both
stack tops exist — `getCurrentScope` finds a current record for each kind —
and the declaration's kind selects the stack consulted (`var` the function
stack, `let`/`const` the block stack).
-/
theorem c8_scope_stacks :
    (∀ s : AnalyzerState,
      startFunction s = { functionStack := freshScope :: s.functionStack
                          blockStack := freshBlock :: s.blockStack } ∧
      startBlock s = { s with blockStack := freshBlock :: s.blockStack } ∧
      endFunction (startFunction s) = s ∧
      endBlock (startBlock s) = s ∧
      getCurrentScope s Kind.varKind = s.functionStack.head? ∧
      getCurrentScope s Kind.letKind =
        s.blockStack.head?.map BlockRec.letRec ∧
      getCurrentScope s Kind.constKind =
        s.blockStack.head?.map BlockRec.constRec)
  ∧ (∀ evs, Balanced evs → ∀ s, runEvents s evs = s)
  ∧ (∀ evs, Balanced evs →
     ∀ (s : AnalyzerState) (p q : List TraversalEvent), p ++ q = evs →
       s.functionStack ≠ [] → s.blockStack ≠ [] →
       (∃ f, getCurrentScope (runEvents s p) Kind.varKind = some f) ∧
       (∃ bl, getCurrentScope (runEvents s p) Kind.letKind = some bl) ∧
       (∃ bc, getCurrentScope (runEvents s p) Kind.constKind = some bc)) := by
  refine ⟨?_, ?_, ?_⟩
  · intro s
    refine ⟨?_, rfl, endFunction_startFunction s, endBlock_startBlock s,
      rfl, rfl, rfl⟩
    simp [startFunction, startBlock]
  · intro evs h s
    exact balanced_runEvents h s
  · intro evs h s p q hpq hf hb
    have hle := balanced_prefix_le h s p q hpq
    have hf2 : (runEvents s p).functionStack ≠ [] := by
      intro hnil
      have h1 := hle.1
      rw [hnil] at h1
      simp only [List.length_nil, Nat.le_zero, List.length_eq_zero] at h1
      exact hf h1
    have hb2 : (runEvents s p).blockStack ≠ [] := by
      intro hnil
      have h1 := hle.2
      rw [hnil] at h1
      simp only [List.length_nil, Nat.le_zero, List.length_eq_zero] at h1
      exact hb h1
    rcases hfe : (runEvents s p).functionStack with _ | ⟨f, fs⟩
    · exact absurd hfe hf2
    · rcases hbe : (runEvents s p).blockStack with _ | ⟨b, bs⟩
      · exact absurd hbe hb2
      · exact ⟨⟨f, by simp [getCurrentScope, hfe]⟩,
          ⟨b.letRec, by simp [getCurrentScope, hbe]⟩,
          ⟨b.constRec, by simp [getCurrentScope, hbe]⟩⟩

/-- C8, witness: a balanced function/block nesting run from a
one-function-deep state restores it, and the stack tops stay available at an
intermediate point. -/
theorem c8_witness :
    runEvents c8wState c8wEvents = c8wState ∧
    (∃ f, getCurrentScope (runEvents c8wState [TraversalEvent.enterFunction])
        Kind.varKind = some f) ∧
    (∃ bl, getCurrentScope (runEvents c8wState [TraversalEvent.enterFunction])
        Kind.letKind = some bl) ∧
    (∃ bc, getCurrentScope (runEvents c8wState [TraversalEvent.enterFunction])
        Kind.constKind = some bc) := by
  have hbal : Balanced c8wEvents :=
    Balanced.fn (Balanced.blk Balanced.nil)
  refine ⟨c8_scope_stacks.2.1 c8wEvents hbal c8wState, ?_⟩
  exact c8_scope_stacks.2.2 c8wEvents hbal c8wState
    [TraversalEvent.enterFunction]
    [TraversalEvent.enterBlock, TraversalEvent.exitBlock,
     TraversalEvent.exitFunction]
    rfl (by simp [c8wState]) (by simp [c8wState])

end OneVar
